import Mathlib

/-!
Verification of the drag-and-drop marker question module
(`question/type/ddmarker/amd/src/question.js`).

The module's computational core is embedded shallowly: the background image
geometry queried from the page (`bgImage().offset()`, `.position()`,
`.width()`, `.height()`) becomes an explicit `ImgEnv` record, jQuery DOM
state for a choice's drag items becomes a list of `DragItem` records, and
the string codec (`join`/`split`/`Number`/regex matching) is modelled over
`List Char`.  JS numbers that can only be integers or `NaN` in this code
are modelled as `Option Int`, `none` standing for `NaN`.
-/

namespace DDMarker

/-- The background image geometry the module queries from the page:
`bgImage().offset()` (page-absolute top-left), `bgImage().position()`
(offset-parent-relative top-left), and `width()`/`height()`. -/
structure ImgEnv where
  offsetLeft : Int
  offsetTop : Int
  positionLeft : Int
  positionTop : Int
  width : Int
  height : Int
deriving DecidableEq

/-- `t.convertToBgImgXY(windowxy)`: window coordinates to image-relative
coordinates, the `- 1` compensating for the 1px image border. -/
def convertToBgImgXY (env : ImgEnv) (windowxy : Int × Int) : Int × Int :=
  (windowxy.1 - env.offsetLeft - 1, windowxy.2 - env.offsetTop - 1)

/-- `t.convertToWindowXY(bgImgXY)`: image-relative coordinates back to
window coordinates, using `position()` rather than `offset()`. -/
def convertToWindowXY (env : ImgEnv) (bgImgXY : Int × Int) : Int × Int :=
  (bgImgXY.1 + env.positionLeft + 1, bgImgXY.2 + env.positionTop + 1)

/-- `t.coordsInBgImg(coords)`:
`coords[0] > 0 && coords[1] > 0 && coords[0] <= width && coords[1] <= height`. -/
def coordsInBgImg (env : ImgEnv) (coords : Int × Int) : Bool :=
  coords.1 > 0 && coords.2 > 0 && coords.1 ≤ env.width && coords.2 ≤ env.height

/-- `t.constrainToBgImg(windowxy)`: convert to image space, clamp each axis
with `Math.max(0, _)` then `Math.min(dimension, _)`, convert back. -/
def constrainToBgImg (env : ImgEnv) (windowxy : Int × Int) : Int × Int :=
  let bgImgXY := convertToBgImgXY env windowxy
  convertToWindowXY env
    (min env.width (max 0 bgImgXY.1), min env.height (max 0 bgImgXY.2))

/-! ### Digit strings and the `Number` conversion

`coords.join(';')` stringifies each `[x, y]` pair with JavaScript's
decimal integer notation; `Number(s)` converts a decimal string back.
We model decimal printing through a fuel-indexed digit extractor (so that
it is kernel-reducible) and prove it equal to `Nat.digits 10`. -/

/-- Little-endian base-10 digits of `n`, with explicit fuel (first
argument) so the definition is structurally recursive. -/
def natDigitsAux : Nat → Nat → List Nat
  | 0, _ => []
  | _ + 1, 0 => []
  | fuel + 1, n + 1 => ((n + 1) % 10) :: natDigitsAux fuel ((n + 1) / 10)

/-- Little-endian base-10 digits of `n` (`natDigits 0 = []`). -/
def natDigits (n : Nat) : List Nat := natDigitsAux n n

/-- The character for one decimal digit. -/
def digitChar (d : Nat) : Char := Char.ofNat (48 + d)

/-- The numeric value of one decimal digit character. -/
def digitVal (c : Char) : Nat := c.toNat - 48

/-- Decimal notation of a natural number, as JavaScript prints it. -/
def natToChars (n : Nat) : List Char :=
  if n = 0 then ['0'] else (natDigits n).reverse.map digitChar

/-- Decimal notation of an integer, as JavaScript prints it. -/
def intToChars (x : Int) : List Char :=
  if x < 0 then '-' :: natToChars x.natAbs else natToChars x.toNat

/-- The value of a decimal digit string (most significant digit first). -/
def parseDigits (cs : List Char) : Nat :=
  cs.foldl (fun a c => 10 * a + digitVal c) 0

/-- Model of the JavaScript `Number(s)` conversion on the integer strings
this module produces and consumes: `Number('') === 0`, an optional minus
sign followed by decimal digits converts exactly, and anything else is
`NaN` (modelled as `none`).  Fractional, hexadecimal and whitespace forms
never arise here and are not modelled. -/
def jsNumber (cs : List Char) : Option Int :=
  if cs = [] then some 0
  else if cs.head? = some '-' then
    if cs.tail ≠ [] ∧ cs.tail.all Char.isDigit then
      some (-(parseDigits cs.tail : Int))
    else none
  else if cs.all Char.isDigit then some ((parseDigits cs : Int)) else none

/-! ### The marker-position codec

`saveCoordsForChoice` encodes with `coords.join(';')`, where each
element `[x, y]` stringifies as `x + ',' + y`; `getCoords` decodes with
`val.split(';')` followed by `split(',')` and `Number` conversion of the
first two fields (a missing field is `undefined`, whose `Number` is
`NaN`). -/

/-- One `[x, y]` pair as `join` prints it: `"x,y"`. -/
def encodePair (p : Int × Int) : List Char :=
  List.intercalate [','] [intToChars p.1, intToChars p.2]

/-- `coords.join(';')` over a list of pairs. -/
def encodeChars (pts : List (Int × Int)) : List Char :=
  List.intercalate [';'] (pts.map encodePair)

/-- The encoded form field value for a coordinate list. -/
def encode (pts : List (Int × Int)) : String := String.mk (encodeChars pts)

/-- One `';'`-part decoded: split on `','`, convert fields 0 and 1 with
`Number` (a missing field yields `NaN`, extra fields are ignored). -/
def decodePairChars (cs : List Char) : Option Int × Option Int :=
  let fields := cs.splitOn ','
  (match fields[0]? with
   | some f => jsNumber f
   | none => none,
   match fields[1]? with
   | some f => jsNumber f
   | none => none)

/-- Decode a non-empty form field value: split on `';'`, decode each part. -/
def decodeChars (cs : List Char) : List (Option Int × Option Int) :=
  (cs.splitOn ';').map decodePairChars

/-- The decoder as `getCoords` applies it: the empty string yields no
coordinates (guarded by `val !== ''`), otherwise every part yields one
pair. -/
def decode (s : String) : List (Option Int × Option Int) :=
  if s = "" then [] else decodeChars s.data

/-! ### Basic facts about digits and splitting -/

theorem natDigitsAux_eq_digits :
    ∀ fuel n, n ≤ fuel → natDigitsAux fuel n = Nat.digits 10 n := by
  intro fuel
  induction fuel with
  | zero => intro n hn; interval_cases n; simp [natDigitsAux]
  | succ fuel ih =>
    intro n hn
    match n with
    | 0 => simp [natDigitsAux]
    | m + 1 =>
      rw [natDigitsAux, Nat.digits_def' (by norm_num : (1 : Nat) < 10) (Nat.succ_pos m)]
      congr 1
      exact ih ((m + 1) / 10) (by
        have := Nat.div_lt_self (Nat.succ_pos m) (by norm_num : (1 : Nat) < 10)
        omega)

theorem natDigits_eq_digits (n : Nat) : natDigits n = Nat.digits 10 n :=
  natDigitsAux_eq_digits n n le_rfl

theorem digitChar_spec :
    ∀ d < 10, (digitChar d).isDigit = true ∧ digitVal (digitChar d) = d ∧
      digitChar d ≠ ',' ∧ digitChar d ≠ ';' ∧ digitChar d ≠ '-' := by decide

theorem natToChars_ne_nil (n : Nat) : natToChars n ≠ [] := by
  unfold natToChars
  split
  · simp
  · next h =>
    have hd : Nat.digits 10 n ≠ [] := Nat.digits_ne_nil_iff_ne_zero.mpr h
    rw [natDigits_eq_digits]
    simp only [ne_eq, List.map_eq_nil_iff, List.reverse_eq_nil_iff]
    exact hd

theorem mem_natToChars_isDigit {n : Nat} {c : Char} (hc : c ∈ natToChars n) :
    c.isDigit = true := by
  unfold natToChars at hc
  split at hc
  · simp only [List.mem_singleton] at hc
    subst hc; decide
  · rw [natDigits_eq_digits] at hc
    simp only [List.mem_map, List.mem_reverse] at hc
    obtain ⟨d, hd, rfl⟩ := hc
    exact (digitChar_spec d (Nat.digits_lt_base (by norm_num) hd)).1

theorem not_mem_natToChars {n : Nat} {c : Char} (hc : c.isDigit = false) :
    c ∉ natToChars n := by
  intro h
  have := mem_natToChars_isDigit h
  rw [hc] at this
  exact absurd this (by decide)

theorem parseDigits_reverse_map (l : List Nat) (hl : ∀ d ∈ l, d < 10) :
    parseDigits (l.reverse.map digitChar) = Nat.ofDigits 10 l := by
  induction l with
  | nil => rfl
  | cons d l ih =>
    have hd : d < 10 := hl d (List.mem_cons_self _ _)
    have hrest : ∀ e ∈ l, e < 10 := fun e he => hl e (List.mem_cons_of_mem _ he)
    have step : parseDigits (l.reverse.map digitChar ++ [digitChar d]) =
        10 * parseDigits (l.reverse.map digitChar) + digitVal (digitChar d) := by
      unfold parseDigits
      rw [List.foldl_append]
      rfl
    simp only [List.reverse_cons, List.map_append, List.map_cons, List.map_nil]
    rw [step, ih hrest, (digitChar_spec d hd).2.1, Nat.ofDigits_cons]
    ring

theorem parseDigits_natToChars (n : Nat) : parseDigits (natToChars n) = n := by
  unfold natToChars
  split
  · next h => subst h; decide
  · rw [natDigits_eq_digits,
      parseDigits_reverse_map _ (fun d hd => Nat.digits_lt_base (by norm_num) hd),
      Nat.ofDigits_digits]

theorem jsNumber_natToChars (n : Nat) : jsNumber (natToChars n) = some (n : Int) := by
  have hne : natToChars n ≠ [] := natToChars_ne_nil n
  have hdig : (natToChars n).all Char.isDigit = true := by
    rw [List.all_eq_true]
    intro c hc
    exact mem_natToChars_isDigit hc
  have hhead : ¬((natToChars n).head? = some '-') := by
    cases h : natToChars n with
    | nil => exact absurd h hne
    | cons c cs =>
      simp only [List.head?_cons, Option.some.injEq]
      intro hc
      have hmem : c ∈ natToChars n := by
        rw [h]; exact List.mem_cons_self _ _
      have := mem_natToChars_isDigit hmem
      subst hc
      exact absurd this (by decide)
  unfold jsNumber
  rw [if_neg hne, if_neg hhead, if_pos hdig, parseDigits_natToChars]

theorem intToChars_of_pos {x : Int} (hx : 0 < x) : intToChars x = natToChars x.toNat := by
  unfold intToChars
  rw [if_neg (by omega)]

theorem jsNumber_intToChars_of_pos {x : Int} (hx : 0 < x) :
    jsNumber (intToChars x) = some x := by
  rw [intToChars_of_pos hx, jsNumber_natToChars, Int.toNat_of_nonneg hx.le]

theorem intercalate_pair (sep a b : List Char) :
    List.intercalate sep [a, b] = a ++ sep ++ b := by
  simp [List.intercalate, List.intersperse]

theorem not_mem_intToChars_of_pos {x : Int} {c : Char} (hx : 0 < x)
    (hc : c.isDigit = false) : c ∉ intToChars x := by
  rw [intToChars_of_pos hx]
  exact not_mem_natToChars hc

theorem encodePair_ne_nil (p : Int × Int) : encodePair p ≠ [] := by
  unfold encodePair
  rw [intercalate_pair]
  simp

theorem not_semi_mem_encodePair {p : Int × Int} (hx : 0 < p.1) (hy : 0 < p.2) :
    ';' ∉ encodePair p := by
  unfold encodePair
  rw [intercalate_pair]
  simp only [List.mem_append, List.mem_cons, List.not_mem_nil, or_false]
  push_neg
  refine ⟨⟨?_, ?_⟩, ?_⟩
  · exact not_mem_intToChars_of_pos hx (by decide)
  · decide
  · exact not_mem_intToChars_of_pos hy (by decide)

theorem splitOn_encodePair {x y : Int} (hx : 0 < x) (hy : 0 < y) :
    (encodePair (x, y)).splitOn ',' = [intToChars x, intToChars y] := by
  unfold encodePair
  apply List.splitOn_intercalate
  · intro l hl
    simp only [List.mem_cons, List.not_mem_nil, or_false] at hl
    rcases hl with rfl | rfl
    · exact not_mem_intToChars_of_pos hx (by decide)
    · exact not_mem_intToChars_of_pos hy (by decide)
  · simp

theorem decodePairChars_encodePair {x y : Int} (hx : 0 < x) (hy : 0 < y) :
    decodePairChars (encodePair (x, y)) = (some x, some y) := by
  unfold decodePairChars
  rw [splitOn_encodePair hx hy]
  simp only [List.getElem?_cons_zero, List.getElem?_cons_succ]
  rw [jsNumber_intToChars_of_pos hx, jsNumber_intToChars_of_pos hy]

theorem coordsInBgImg_pos {env : ImgEnv} {p : Int × Int}
    (h : coordsInBgImg env p = true) : 0 < p.1 ∧ 0 < p.2 := by
  simp only [coordsInBgImg, Bool.and_eq_true, decide_eq_true_eq, gt_iff_lt] at h
  exact ⟨h.1.1.1, h.1.1.2⟩

theorem splitOn_encodeChars (hd : Int × Int) (tl : List (Int × Int))
    (h : ∀ p ∈ hd :: tl, 0 < p.1 ∧ 0 < p.2) :
    (encodeChars (hd :: tl)).splitOn ';' = (hd :: tl).map encodePair := by
  unfold encodeChars
  apply List.splitOn_intercalate
  · intro l hl
    simp only [List.mem_map] at hl
    obtain ⟨p, hp, rfl⟩ := hl
    exact not_semi_mem_encodePair (h p hp).1 (h p hp).2
  · simp

theorem encode_cons_ne_empty (hd : Int × Int) (tl : List (Int × Int))
    (h : ∀ p ∈ hd :: tl, 0 < p.1 ∧ 0 < p.2) : encode (hd :: tl) ≠ "" := by
  intro hcontra
  have hdata : encodeChars (hd :: tl) = [] := congrArg String.data hcontra
  have hsplit := splitOn_encodeChars hd tl h
  rw [hdata] at hsplit
  rw [show (([] : List Char).splitOn ';') = [[]] from rfl] at hsplit
  injection hsplit with h1 _
  exact encodePair_ne_nil hd h1.symm

/-- A 100×100 background image whose page offset and ancestor-relative
position coincide at the origin. -/
def env100 : ImgEnv := ⟨0, 0, 0, 0, 100, 100⟩

/-- A 100×100 background image whose page offset `(0,0)` differs from its
ancestor-relative position `(10,10)` — the situation `constrainToBgImg`
actually faces, since it converts in with `offset()` and out with
`position()`. -/
def envShifted : ImgEnv := ⟨0, 0, 10, 10, 100, 100⟩

/-- Claim C2: for every ordered sequence of integer coordinate pairs lying
within the image bounds, decoding the encoded form-field string returns
the same sequence (each integer coming back as a non-`NaN` JS number):
`encode` joins pairs as `"x,y"` with `";"` between pairs (the empty
sequence encodes to the empty string), `decode` splits on `";"` then on
`","`, and `decode (encode pts) = pts`. -/
theorem decode_encode_roundtrip (env : ImgEnv) (pts : List (Int × Int))
    (h : ∀ p ∈ pts, coordsInBgImg env p = true) :
    decode (encode pts) = pts.map (fun p => (some p.1, some p.2)) := by
  have hpos : ∀ p ∈ pts, 0 < p.1 ∧ 0 < p.2 := fun p hp => coordsInBgImg_pos (h p hp)
  cases pts with
  | nil => rfl
  | cons hd tl =>
    unfold decode
    rw [if_neg (encode_cons_ne_empty hd tl hpos)]
    show decodeChars (encodeChars (hd :: tl)) = _
    unfold decodeChars
    rw [splitOn_encodeChars hd tl hpos, List.map_map]
    apply List.map_congr_left
    intro p hp
    simp only [Function.comp_apply]
    exact decodePairChars_encodePair (hpos p hp).1 (hpos p hp).2

/-- Witness for C2: the round trip evaluated on `[(10,20), (30,40)]` on a
100×100 image. -/
theorem decode_encode_roundtrip_witness :
    decode (encode [((10 : Int), (20 : Int)), (30, 40)]) =
      [(some 10, some 20), (some 30, some 40)] :=
  decode_encode_roundtrip env100 [(10, 20), (30, 40)] (by decide)

/-- Claim C8: for every image-relative point `(x, y)`, `coordsInBgImg`
(`isWithinImage`) returns true if and only if `0 < x ≤ width` and
`0 < y ≤ height` — strict lower bound, inclusive upper bound; in
particular it is false whenever `x ≤ 0`, `y ≤ 0`, `x > width` or
`y > height`. -/
theorem coordsInBgImg_iff (env : ImgEnv) (x y : Int) :
    coordsInBgImg env (x, y) = true ↔
      (0 < x ∧ x ≤ env.width ∧ 0 < y ∧ y ≤ env.height) := by
  simp only [coordsInBgImg, Bool.and_eq_true, decide_eq_true_eq, gt_iff_lt]
  tauto

/-- Claim C7 counterexample: `constrainToBgImg` is not idempotent as the
claim states it.  It converts into image space using the image's page
offset but converts back using its ancestor-relative position; when the
two origins differ (image offset `(0,0)`, position `(10,10)`, 100×100
image) the point `(1,1)` maps to `(11,11)` under one application and to
`(21,21)` under two. -/
theorem constrainToBgImg_not_idempotent :
    constrainToBgImg envShifted (constrainToBgImg envShifted (1, 1)) ≠
      constrainToBgImg envShifted (1, 1) := by decide

/-- Claim C7 amended: `constrainToBgImg` (`clampToImage`) is idempotent
whenever the image's page offset coincides with its ancestor-relative
position (the two origins `convertToBgImgXY` and `convertToWindowXY` use);
without that assumption the origin shift is applied once per call and
idempotence fails. -/
theorem constrainToBgImg_idem_same_origin (env : ImgEnv) (p : Int × Int)
    (hx : env.offsetLeft = env.positionLeft) (hy : env.offsetTop = env.positionTop) :
    constrainToBgImg env (constrainToBgImg env p) = constrainToBgImg env p := by
  cases p with
  | mk a b =>
    simp only [constrainToBgImg, convertToBgImgXY, convertToWindowXY, hx, hy,
      Prod.mk.injEq]
    constructor <;> omega

/-- Witness for C7 amended: idempotence at the out-of-bounds viewport point
`(150, -3)` on a 100×100 image with coinciding origins. -/
theorem constrainToBgImg_idem_witness :
    constrainToBgImg env100 (constrainToBgImg env100 (150, -3)) =
      constrainToBgImg env100 (150, -3) :=
  constrainToBgImg_idem_same_origin env100 (150, -3) rfl rfl

/-- Claim C6 counterexample: the string `"5,6,7"` consists of a single
`";"`-part that is not exactly two integers, yet `decode` does not fail:
it silently produces the coordinate pair `(5, 6)` from the first two
fields.  No exception or `FormatError` exists anywhere in this code path —
the decoder in `getCoords` is total. -/
theorem decode_malformed_part_produces_coords :
    ("5,6,7").data.splitOn ';' = [("5,6,7").data] ∧
    decode "5,6,7" = [(some 5, some 6)] := by decide

/-- Claim C6 amended: `decode` never fails and raises no `FormatError`:
for every non-empty input string, every `";"`-separated part — well-formed
or not — yields exactly one coordinate pair, built by converting the
part's first two `","`-fields with `Number` (a missing or non-numeric
field gives `NaN`, extra fields are silently ignored). -/
theorem decode_total_no_error (s : String) (h : s ≠ "") :
    decode s = (s.data.splitOn ';').map decodePairChars := by
  unfold decode
  rw [if_neg h]
  rfl

/-- Witness for C6 amended, at the malformed input `"5,6,7"`. -/
theorem decode_total_no_error_witness :
    decode "5,6,7" = (("5,6,7").data.splitOn ';').map decodePairChars :=
  decode_total_no_error "5,6,7" (by decide)

/-! ### Saving a choice's placements (`saveCoordsForChoice`)

One `span.dragitem` node for a choice: its `beingdragged` class, its
`offset()` (page coordinates of its top-left) and its `innerText` (the
marker label, used by the function to decide whether the just-dropped node
is already represented).  The JS loop runs `i` from `0` to the number of
drag items for the choice inclusive, looking up the item with class
`item<i>`; with instances at contiguous indices `0 .. count-1` — the only
layout `redrawDragsAndDrops` ever creates, via `cloneNewDragItem` — this
visits each instance once in index order (the final index finds no node
and is skipped), so the scan is modelled as a left fold over the items in
index order. -/

structure DragItem where
  beingdragged : Bool
  offsetLeft : Int
  offsetTop : Int
  innerText : String
deriving DecidableEq

/-- The image-relative position of a drag item,
`convertToBgImgXY([drag.offset().left, drag.offset().top])`. -/
def dragBgXY (env : ImgEnv) (d : DragItem) : Int × Int :=
  convertToBgImgXY env (d.offsetLeft, d.offsetTop)

/-- One iteration of the scan loop in `saveCoordsForChoice`: a non-dragged
item whose image-relative position passes `coordsInBgImg` appends its
position; any scanned item whose `innerText` equals the dropped node's
clears the `addme` flag. -/
def saveScanStep (env : ImgEnv) (dropped : DragItem)
    (acc : List (Int × Int) × Bool) (drag : DragItem) : List (Int × Int) × Bool :=
  let coords :=
    if drag.beingdragged then acc.1
    else
      let bgImgXY := dragBgXY env drag
      if coordsInBgImg env bgImgXY then acc.1 ++ [bgImgXY] else acc.1
  let addme := if dropped.innerText = drag.innerText then false else acc.2
  (coords, addme)

/-- `t.saveCoordsForChoice(choiceNo, dropped)`: rebuild the coordinate
list by scanning the choice's current drag items, then — if no scanned
item matched the dropped node — append the dropped node's position when it
lies within the image; the result is `coords.join(';')`, the value written
into the choice's hidden input.  `dropped` is always a real node at both
call sites (`dragEnd` and `dropzoneKeyPress`). -/
def saveCoordsForChoice (env : ImgEnv) (items : List DragItem)
    (dropped : DragItem) : String :=
  let scanned := items.foldl (saveScanStep env dropped) ([], true)
  let coords :=
    if scanned.2 then
      let bgImgXY := dragBgXY env dropped
      if coordsInBgImg env bgImgXY then scanned.1 ++ [bgImgXY] else scanned.1
    else scanned.1
  encode coords

/-- The coordinate list described by the spec's `savePlacement` contract:
kept in-bounds positions of non-dragged instances in index order, followed
by the dropped instance's in-bounds position when no scanned instance
matches it by label equality. -/
def savePlacement_claim (env : ImgEnv) (items : List DragItem)
    (dropped : DragItem) : List (Int × Int) :=
  let kept := (items.filter fun d =>
    !d.beingdragged && coordsInBgImg env (dragBgXY env d)).map (dragBgXY env)
  let matched := items.any fun d => dropped.innerText = d.innerText
  if !matched && coordsInBgImg env (dragBgXY env dropped) then
    kept ++ [dragBgXY env dropped]
  else kept

theorem saveScan_fold (env : ImgEnv) (dropped : DragItem) (items : List DragItem)
    (c : List (Int × Int)) (a : Bool) :
    items.foldl (saveScanStep env dropped) (c, a) =
      (c ++ (items.filter fun d =>
          !d.beingdragged && coordsInBgImg env (dragBgXY env d)).map (dragBgXY env),
       a && !(items.any fun d => dropped.innerText = d.innerText)) := by
  induction items generalizing c a with
  | nil => simp
  | cons d rest ih =>
    simp only [List.foldl_cons, List.filter_cons, List.any_cons]
    rw [ih]
    by_cases hb : d.beingdragged <;>
      by_cases hc : coordsInBgImg env (dragBgXY env d) = true <;>
        by_cases hm : dropped.innerText = d.innerText <;>
          simp [saveScanStep, hb, hc, hm]

/-- A drag item dropped with image-relative position `(0, 50)` on `env100`
(the item's page offset is `(1, 51)`; subtracting the zero image offset
and the 1px border gives `(0, 50)`). -/
def edgeDrop : DragItem := ⟨false, 1, 51, "M"⟩

/-- An already-placed instance at image position `(50, 50)`. -/
def itemAt50 : DragItem := ⟨false, 51, 51, "A"⟩

/-- An already-placed instance at image position `(20, 20)`. -/
def itemAt20 : DragItem := ⟨false, 21, 21, "A"⟩

/-- A newly dropped item at image position `(40, 40)` whose label matches
no existing instance. -/
def newDrop : DragItem := ⟨false, 41, 41, "B"⟩

/-- Claim C1: `saveCoordsForChoice` rebuilds the choice's coordinate list
by scanning the current instances in index order, skipping the one being
dragged and every instance whose image-relative position fails
`coordsInBgImg`, and appends the dropped instance's in-bounds position
last exactly when no scanned instance matches it by label equality
(first conjunct, an equality with the spec-side `savePlacement_claim`);
a drop at image-relative `(0, 50)` on a 100×100 image is excluded from the
encoded output since `x` is not `> 0` (second conjunct, Scenario F); and
the kept positions `(50,50)`, `(20,20)` precede the newly dropped
`(40,40)` — index order, not sorted by position (third conjunct). -/
theorem saveCoordsForChoice_spec :
    (∀ (env : ImgEnv) (items : List DragItem) (dropped : DragItem),
        saveCoordsForChoice env items dropped =
          encode (savePlacement_claim env items dropped))
    ∧ saveCoordsForChoice env100 [] edgeDrop = ""
    ∧ saveCoordsForChoice env100 [itemAt50, itemAt20] newDrop = "50,50;20,20;40,40" := by
  refine ⟨?_, by decide, by decide⟩
  intro env items dropped
  unfold saveCoordsForChoice savePlacement_claim
  rw [saveScan_fold]
  by_cases hm : (items.any fun d => dropped.innerText = d.innerText) = true <;>
    by_cases hc : coordsInBgImg env (dragBgXY env dropped) = true <;>
      simp [hm, hc]

/-! ### Required display count (`getCoords`)

`getCoords` reads a choice's hidden input: the saved value is decoded into
window coordinates (via `convertToWindowXY` over each pair's first two
fields), and one extra home-position entry is appended when the input has
the `infinite` class or fewer drags are displayed than the `noofdrags`
class suffix allows. -/

/-- JS addition where the left operand may be `NaN`. -/
def jsAddNum (a : Option Int) (b : Int) : Option Int := a.map (· + b)

/-- `convertToWindowXY` applied to the two fields of a decoded pair, as
`getCoords` does with `coordsstrings[i].split(',')`. -/
def convertToWindowXY_num (env : ImgEnv) (p : Option Int × Option Int) :
    Option Int × Option Int :=
  (jsAddNum p.1 (env.positionLeft + 1), jsAddNum p.2 (env.positionTop + 1))

/-- `t.getCoords(inputnode)`: the positions at which the choice's drag
items are to be drawn.  `val` is the hidden input's value, `infinite` its
`infinite` class, `noofdrags` its `noofdrags<N>` class suffix, `dragging`
whether `dragItemBeingDragged(choiceNo)` found a node, and `homeXY` the
choice's `dragHomeXY` position. -/
def getCoords (env : ImgEnv) (val : String) (infinite : Bool) (noofdrags : Nat)
    (dragging : Bool) (homeXY : Int × Int) : List (Option Int × Option Int) :=
  let coords :=
    if val = "" then []
    else (val.data.splitOn ';').map fun cs =>
      convertToWindowXY_num env (decodePairChars cs)
  let displayeddrags := coords.length + (if dragging then 1 else 0)
  if infinite || displayeddrags < noofdrags then
    coords ++ [(some homeXY.1, some homeXY.2)]
  else coords

/-- The number of saved placements in a hidden input's value: the number
of `";"`-parts of a non-empty value. -/
def placedCount (val : String) : Nat :=
  if val = "" then 0 else (val.data.splitOn ';').length

/-- The number of marker instances displayed for a choice: the positions
`getCoords` returns plus the instance currently being dragged, which
stays on the page alongside them. -/
def requiredDisplayCount (env : ImgEnv) (val : String) (infinite : Bool)
    (noofdrags : Nat) (dragging : Bool) (homeXY : Int × Int) : Nat :=
  (getCoords env val infinite noofdrags dragging homeXY).length +
    (if dragging then 1 else 0)

/-- Claim C5: the number of marker instances to display equals
`placedCount + (isDragging ? 1 : 0)`, plus one extra unplaced home
instance exactly when the policy is unlimited or that count is less than
the configured maximum (first conjunct); with unlimited policy, no placed
markers and none dragging the count is 1 (Scenario D, second conjunct);
with maximum 2, two placed and none dragging it is 2 (Scenario E, third
conjunct). -/
theorem getCoords_display_count :
    (∀ (env : ImgEnv) (val : String) (infinite : Bool) (noofdrags : Nat)
        (dragging : Bool) (homeXY : Int × Int),
        requiredDisplayCount env val infinite noofdrags dragging homeXY =
          placedCount val + (if dragging then 1 else 0) +
            (if infinite || placedCount val + (if dragging then 1 else 0) < noofdrags
             then 1 else 0))
    ∧ requiredDisplayCount env100 "" true 0 false (7, 7) = 1
    ∧ requiredDisplayCount env100 "10,20;30,40" false 2 false (7, 7) = 2 := by
  refine ⟨?_, by decide, by decide⟩
  intro env val infinite noofdrags dragging homeXY
  have hlen : ∀ (c : Prop) (inst : Decidable c)
      (xs : List (Option Int × Option Int)) (x : Option Int × Option Int),
      (if c then xs ++ [x] else xs).length = xs.length + (if c then 1 else 0) := by
    intro c inst xs x
    split <;> simp
  unfold requiredDisplayCount getCoords placedCount
  simp only [hlen, List.length_map]
  by_cases hv : val = "" <;> simp only [hv, ite_true, ite_false, List.length_nil,
    List.length_map, if_true, if_false, reduceIte] <;> omega

/-! ### Drop-zone geometry parsing and the shape handlers

`addShape_circle` matches `coords.match(/(\d+),(\d+);(\d+)/)` and
`addShape_rectangle` matches `coords.match(/(\d+),(\d+);(\d+),(\d+)/)`.
Both patterns are unanchored: JavaScript's `match` returns the leftmost
match, scanning forward from each position.  Because each `\d+` is a run
of digits followed by a required non-digit literal, greedy maximal-munch
matching without backtracking is equivalent to the regex engine's
semantics, which is how the matchers below are written.
`addShape_polygon` instead splits on `";"` and matches each segment
against the fully anchored `/^(\d+),(\d+)$/`. -/

/-- Split a character list into its leading run of decimal digits and the
rest. -/
def takeDigits : List Char → List Char × List Char
  | [] => ([], [])
  | c :: cs =>
    if c.isDigit then
      let r := takeDigits cs
      (c :: r.1, r.2)
    else ([], c :: cs)

/-- Try `/(\d+),(\d+);(\d+)/` at the start of the input (the remainder
after the third group is ignored — the pattern has no `$`). -/
def matchCircleAt (cs : List Char) : Option (Nat × Nat × Nat) :=
  let g1 := takeDigits cs
  if g1.1 = [] then none else
  match g1.2 with
  | ',' :: r1 =>
    let g2 := takeDigits r1
    if g2.1 = [] then none else
    match g2.2 with
    | ';' :: r2 =>
      let g3 := takeDigits r2
      if g3.1 = [] then none
      else some (parseDigits g1.1, parseDigits g2.1, parseDigits g3.1)
    | _ => none
  | _ => none

/-- `coords.match(/(\d+),(\d+);(\d+)/)`: the leftmost match anywhere in
the input, or `none`. -/
def matchCircle : List Char → Option (Nat × Nat × Nat)
  | [] => none
  | c :: rest =>
    match matchCircleAt (c :: rest) with
    | some r => some r
    | none => matchCircle rest

/-- Try `/(\d+),(\d+);(\d+),(\d+)/` at the start of the input. -/
def matchRectAt (cs : List Char) : Option (Nat × Nat × Nat × Nat) :=
  let g1 := takeDigits cs
  if g1.1 = [] then none else
  match g1.2 with
  | ',' :: r1 =>
    let g2 := takeDigits r1
    if g2.1 = [] then none else
    match g2.2 with
    | ';' :: r2 =>
      let g3 := takeDigits r2
      if g3.1 = [] then none else
      match g3.2 with
      | ',' :: r3 =>
        let g4 := takeDigits r3
        if g4.1 = [] then none
        else some (parseDigits g1.1, parseDigits g2.1, parseDigits g3.1, parseDigits g4.1)
      | _ => none
    | _ => none
  | _ => none

/-- `coords.match(/(\d+),(\d+);(\d+),(\d+)/)`: the leftmost match anywhere
in the input, or `none`. -/
def matchRect : List Char → Option (Nat × Nat × Nat × Nat)
  | [] => none
  | c :: rest =>
    match matchRectAt (c :: rest) with
    | some r => some r
    | none => matchRect rest

/-- The fully anchored `/^(\d+),(\d+)$/` used on each polygon segment. -/
def matchIntIntAll (cs : List Char) : Option (Nat × Nat) :=
  let g1 := takeDigits cs
  if g1.1 = [] then none else
  match g1.2 with
  | ',' :: r1 =>
    let g2 := takeDigits r1
    if g2.1 = [] then none
    else if g2.2 = [] then some (parseDigits g1.1, parseDigits g2.1)
    else none
  | _ => none

/-- The svg primitive a shape handler registers in `t.shapes[dropzoneno]`:
the attributes that derive from the parsed geometry.  For a polygon the
`points` attribute is the text the handler computes with
`coords.replace(/[,;]/g, ' ')`. -/
inductive Shape
  | circle (cx cy r : Nat)
  | rect (x y w h : Nat)
  | polygon (points : List Char)
deriving DecidableEq

/-- `t.addShape_circle(dropzoneno, coords, colour)`: on success returns
the label-anchor point `[centrex, centrey]` together with the registered
circle; on failure (no regex match, or the top-left corner
`(centrex - radius, centrey - radius)` failing `coordsInBgImg`) returns
`null` and registers nothing. -/
def addShape_circle (env : ImgEnv) (coords : String) :
    Option ((Rat × Rat) × Shape) :=
  match matchCircle coords.data with
  | some (centrex, centrey, radius) =>
    if coordsInBgImg env ((centrex : Int) - radius, (centrey : Int) - radius) then
      some (((centrex : Rat), (centrey : Rat)), Shape.circle centrex centrey radius)
    else none
  | none => none

/-- `t.addShape_rectangle(dropzoneno, coords, colour)`: on success returns
the anchor `[x + width/2, y + height/2]` together with the registered
rectangle; the bounds check examines only the bottom-right corner
`(x + width, y + height)`. -/
def addShape_rectangle (env : ImgEnv) (coords : String) :
    Option ((Rat × Rat) × Shape) :=
  match matchRect coords.data with
  | some (x, y, w, h) =>
    if coordsInBgImg env ((x : Int) + w, (y : Int) + h) then
      some (((x : Rat) + (w : Rat) / 2, (y : Rat) + (h : Rat) / 2), Shape.rect x y w h)
    else none
  | none => none

/-- One iteration of the polygon vertex filter: keep a segment exactly
when it matches `/^(\d+),(\d+)$/` and its point passes `coordsInBgImg`
(JavaScript compares the captured digit strings, which coerce to these
numbers). -/
def polyStep (env : ImgEnv) (xy : List (Nat × Nat)) (seg : List Char) :
    List (Nat × Nat) :=
  match matchIntIntAll seg with
  | some p => if coordsInBgImg env ((p.1 : Int), (p.2 : Int)) then xy ++ [p] else xy
  | none => xy

/-- The filtered vertex list `xy` built by `addShape_polygon`'s first
loop: split on `";"`, silently dropping malformed and out-of-bounds
segments. -/
def polygonPoints (env : ImgEnv) (coords : String) : List (Nat × Nat) :=
  (coords.data.splitOn ';').foldl (polyStep env) []

/-- The filter applied to one segment, as the spec describes the result. -/
def polyKeep (env : ImgEnv) (seg : List Char) : Option (Nat × Nat) :=
  match matchIntIntAll seg with
  | some p => if coordsInBgImg env ((p.1 : Int), (p.2 : Int)) then some p else none
  | none => none

/-- `coords.replace(/[,;]/g, ' ')`: the `points` attribute text of the
drawn polygon, computed from the original geometry string. -/
def replaceCommaSemi (cs : List Char) : List Char :=
  cs.map fun c => if c = ',' ∨ c = ';' then ' ' else c

/-- The min/max accumulation over the filtered vertices: `minxy` starts at
`[width, height]` and `maxxy` at `[0, 0]`. -/
def polyBounds (env : ImgEnv) (xy : List (Nat × Nat)) : (Int × Int) × (Int × Int) :=
  xy.foldl (fun a p =>
      ((min a.1.1 (p.1 : Int), min a.1.2 (p.2 : Int)),
       (max a.2.1 (p.1 : Int), max a.2.2 (p.2 : Int))))
    ((env.width, env.height), (0, 0))

/-- The polygon label anchor `[(minxy[0] + maxxy[0]) / 2,
(minxy[1] + maxxy[1]) / 2]` — the bounding-box midpoint of the filtered
in-bounds vertices. -/
def polyAnchor (env : ImgEnv) (xy : List (Nat × Nat)) : Rat × Rat :=
  let mm := polyBounds env xy
  (((mm.1.1 + mm.2.1 : Int) : Rat) / 2, ((mm.1.2 + mm.2.2 : Int) : Rat) / 2)

/-- `t.addShape_polygon(dropzoneno, coords, colour)`: filter the vertices,
require more than two to remain, and register a polygon whose `points`
text is the original string with `","` and `";"` replaced by spaces. -/
def addShape_polygon (env : ImgEnv) (coords : String) :
    Option ((Rat × Rat) × Shape) :=
  let xy := polygonPoints env coords
  if 2 < xy.length then
    some (polyAnchor env xy, Shape.polygon (replaceCommaSemi coords.data))
  else none

/-- Claim C3 counterexample: the circle geometry `"95,50;10"` on a 100×100
image is accepted by `addShape_circle` — the handler only checks the
top-left corner `(85, 40)` — although the circle's rightmost point
`(95 + 10, 50) = (105, 50)` lies outside the image, so accepted geometry
does not always lie entirely within the image bounds. -/
theorem addShape_circle_out_of_bounds_accepted :
    addShape_circle env100 "95,50;10" =
      some (((95 : Rat), (50 : Rat)), Shape.circle 95 50 10) ∧
    coordsInBgImg env100 ((95 : Int) + 10, 50) = false := by decide

/-- Claim C3 amended: a circle or rectangle geometry is rejected as a
whole — the handler returns `null` and registers no shape — or is
registered with exactly the parsed geometry, never clipped; but the
acceptance test examines a single corner only: `addShape_circle` checks
`(centrex - radius, centrey - radius)` and `addShape_rectangle` checks
`(x + width, y + height)` against `coordsInBgImg`, so shapes extending
past the other sides of the image can be accepted. -/
theorem addShape_corner_check_only (env : ImgEnv) (coords : String) :
    (∀ (p : Rat × Rat) (sh : Shape), addShape_circle env coords = some (p, sh) →
        ∃ cx cy r, matchCircle coords.data = some (cx, cy, r) ∧
          coordsInBgImg env ((cx : Int) - r, (cy : Int) - r) = true ∧
          p = ((cx : Rat), (cy : Rat)) ∧ sh = Shape.circle cx cy r)
    ∧ (∀ (p : Rat × Rat) (sh : Shape), addShape_rectangle env coords = some (p, sh) →
        ∃ x y w h, matchRect coords.data = some (x, y, w, h) ∧
          coordsInBgImg env ((x : Int) + w, (y : Int) + h) = true ∧
          p = ((x : Rat) + (w : Rat) / 2, (y : Rat) + (h : Rat) / 2) ∧
          sh = Shape.rect x y w h) := by
  constructor
  · intro p sh h
    unfold addShape_circle at h
    cases hm : matchCircle coords.data with
    | none => rw [hm] at h; cases h
    | some t =>
      obtain ⟨cx, cy, r⟩ := t
      rw [hm] at h
      dsimp only at h
      by_cases hb : coordsInBgImg env ((cx : Int) - r, (cy : Int) - r) = true
      · rw [if_pos hb] at h
        simp only [Option.some.injEq, Prod.mk.injEq] at h
        exact ⟨cx, cy, r, rfl, hb, h.1.symm, h.2.symm⟩
      · rw [if_neg hb] at h; cases h
  · intro p sh h
    unfold addShape_rectangle at h
    cases hm : matchRect coords.data with
    | none => rw [hm] at h; cases h
    | some t =>
      obtain ⟨x, y, w, hh⟩ := t
      rw [hm] at h
      dsimp only at h
      by_cases hb : coordsInBgImg env ((x : Int) + w, (y : Int) + hh) = true
      · rw [if_pos hb] at h
        simp only [Option.some.injEq, Prod.mk.injEq] at h
        exact ⟨x, y, w, hh, rfl, hb, h.1.symm, h.2.symm⟩
      · rw [if_neg hb] at h; cases h

/-- Witness for C3 amended, at the circle geometry `"50,50;20"` on a
100×100 image. -/
theorem addShape_corner_check_only_witness :
    ∃ cx cy r, matchCircle ("50,50;20").data = some (cx, cy, r) ∧
      coordsInBgImg env100 ((cx : Int) - r, (cy : Int) - r) = true ∧
      (((50 : Rat), (50 : Rat)) : Rat × Rat) = ((cx : Rat), (cy : Rat)) ∧
      Shape.circle 50 50 20 = Shape.circle cx cy r :=
  (addShape_corner_check_only env100 "50,50;20").1 ((50 : Rat), (50 : Rat))
    (Shape.circle 50 50 20) (by decide)

theorem polyFold (env : ImgEnv) (l : List (List Char)) (acc : List (Nat × Nat)) :
    l.foldl (polyStep env) acc = acc ++ l.filterMap (polyKeep env) := by
  induction l generalizing acc with
  | nil => simp
  | cons seg rest ih =>
    simp only [List.foldl_cons, List.filterMap_cons]
    rw [ih]
    unfold polyStep polyKeep
    cases h : matchIntIntAll seg with
    | none => simp
    | some p =>
      by_cases hc : coordsInBgImg env ((p.1 : Int), (p.2 : Int)) = true <;>
        simp [hc]

/-- Claim C4: the polygon parser splits the geometry string on `";"`,
silently drops every segment that does not match `int,int` or whose point
lies outside the image, and returns the filtered sequence (first
conjunct); with a 100×100 image, `"10,10;200,10;50,90"` drops the second
point (`200 > width`) and keeps `[(10,10), (50,90)]` (second conjunct,
Scenario C), and because fewer than 3 points remain `addShape_polygon`
returns `null` and draws nothing (third conjunct). -/
theorem polygonPoints_filter_spec :
    (∀ (env : ImgEnv) (coords : String),
        polygonPoints env coords = (coords.data.splitOn ';').filterMap (polyKeep env))
    ∧ polygonPoints env100 "10,10;200,10;50,90" = [(10, 10), (50, 90)]
    ∧ addShape_polygon env100 "10,10;200,10;50,90" = none := by
  refine ⟨?_, by decide, by decide⟩
  intro env coords
  unfold polygonPoints
  rw [polyFold]
  simp

/-- Claim C9: on success, `addShape_polygon` registers a polygon whose
`points` text is the original geometry string with `","`/`";"` replaced by
spaces — so filtered-out vertices still appear in the drawn shape — while
the returned label anchor is the bounding-box midpoint of the filtered
in-bounds vertices only (first conjunct); concretely, on a 100×100 image
`"10,10;200,10;50,90;50,50"` succeeds with drawn points text
`"10 10 200 10 50 90 50 50"` — including the out-of-bounds vertex
`(200, 10)` — and anchor `(30, 50)` (second conjunct), while `(200, 10)`
is absent from the filtered vertex list (third conjunct). -/
theorem addShape_polygon_path_unfiltered :
    (∀ (env : ImgEnv) (coords : String) (p : Rat × Rat) (sh : Shape),
        addShape_polygon env coords = some (p, sh) →
          sh = Shape.polygon (replaceCommaSemi coords.data) ∧
          p = polyAnchor env (polygonPoints env coords))
    ∧ addShape_polygon env100 "10,10;200,10;50,90;50,50" =
        some (((30 : Rat), (50 : Rat)),
          Shape.polygon ("10 10 200 10 50 90 50 50").data)
    ∧ (200, 10) ∉ polygonPoints env100 "10,10;200,10;50,90;50,50" := by
  refine ⟨?_, ?_, by decide⟩
  · intro env coords p sh h
    simp only [addShape_polygon] at h
    by_cases hlen : 2 < (polygonPoints env coords).length
    · rw [if_pos hlen] at h
      simp only [Option.some.injEq, Prod.mk.injEq] at h
      exact ⟨h.2.symm, h.1.symm⟩
    · rw [if_neg hlen] at h; cases h
  · have hpts : polygonPoints env100 "10,10;200,10;50,90;50,50" =
        [(10, 10), (50, 90), (50, 50)] := by decide
    have hpath : replaceCommaSemi ("10,10;200,10;50,90;50,50").data =
        ("10 10 200 10 50 90 50 50").data := by decide
    have hb : polyBounds env100 [(10, 10), (50, 90), (50, 50)] =
        ((10, 10), (50, 90)) := by decide
    simp only [addShape_polygon, hpts, hpath, polyAnchor, hb]
    norm_num

/-- Witness for C9, instantiating the success case at the polygon
`"10,10;200,10;50,90;50,50"` on a 100×100 image. -/
theorem addShape_polygon_path_unfiltered_witness :
    Shape.polygon ("10 10 200 10 50 90 50 50").data =
      Shape.polygon (replaceCommaSemi ("10,10;200,10;50,90;50,50").data) ∧
    (((30 : Rat), (50 : Rat)) : Rat × Rat) =
      polyAnchor env100 (polygonPoints env100 "10,10;200,10;50,90;50,50") :=
  addShape_polygon_path_unfiltered.1 env100 "10,10;200,10;50,90;50,50"
    ((30 : Rat), (50 : Rat)) (Shape.polygon ("10 10 200 10 50 90 50 50").data)
    addShape_polygon_path_unfiltered.2.1

/-- Claim C10: the circle and rectangle patterns match unanchored within
the input: the rectangle-format string `"10,10;5,7"` given to the circle
parser matches its first embedded `(\d+),(\d+);(\d+)` with `r = 5` and
parses successfully (first conjunct); a circle string with trailing extra
characters, `"50,50;20xyz"`, also parses (second conjunct); and a
rectangle string with leading non-matching characters, `"zz10,10;5,7"`,
parses from the first embedded match rather than returning `null` (third
conjunct). -/
theorem shape_regex_unanchored :
    addShape_circle env100 "10,10;5,7" =
      some (((10 : Rat), (10 : Rat)), Shape.circle 10 10 5) ∧
    addShape_circle env100 "50,50;20xyz" =
      some (((50 : Rat), (50 : Rat)), Shape.circle 50 50 20) ∧
    addShape_rectangle env100 "zz10,10;5,7" =
      some (((10 : Rat) + (5 : Rat) / 2, (10 : Rat) + (7 : Rat) / 2),
        Shape.rect 10 10 5 7) := by
  refine ⟨by decide, by decide, ?_⟩
  have hm : matchRect ("zz10,10;5,7").data = some (10, 10, 5, 7) := by decide
  simp only [addShape_rectangle, hm, coordsInBgImg, env100]
  norm_num

end DDMarker
